import Mathlib

/-
Verification of the recipe-costing module (models/recipe_recipe.py,
models/recipe_ingredient.py, wizard/ingredient_import.py).

Shallow embedding conventions:
* Python floats are modelled as rationals (ℚ); the claims under scrutiny are
  structural equalities between derived values, which the code computes with
  the very expressions stated, so the idealisation preserves their truth.
* Odoo Many2one references that the code tests for truthiness are modelled as
  Option values; an empty recordset is none.
* The external unit-of-measure conversion (uom.uom._compute_quantity, a host
  framework collaborator outside this repository) is an abstract parameter
  convert : Nat → Nat → ℚ → Option ℚ taking the line's UoM id, the target
  (ingredient's) UoM id and the quantity; a raised exception is none.
* The two configuration rates (ir.config_parameter lookups, host framework)
  are passed as explicit parameters, defaulting behaviour included in them.
-/

/-- An ingredient as read by RecipeRecipeLine._compute_cost: its price and its
unit of measure (a Many2one, tested for truthiness in the code). -/
structure CIngredient where
  price : ℚ
  uom_id : Option Nat
deriving Repr, DecidableEq

/-- A referenced sub-recipe as read by the line cost computation: only its
stored total_cost field is consulted. -/
structure CSubRecipe where
  total_cost : ℚ
deriving Repr, DecidableEq

/-- A recipe line (recipe.recipe.line): optional ingredient reference, optional
sub-recipe reference, quantity and the line's own unit of measure. -/
structure RecipeLine where
  ingredient_id : Option CIngredient
  sub_recipe_id : Option CSubRecipe
  quantity : ℚ
  uom_id : Option Nat
deriving Repr, DecidableEq

/-- RecipeRecipeLine._compute_cost for one line.  Mirrors the Python branch
structure: `if line.ingredient_id and line.quantity:` (with the inner
uom-guard and try/except around the conversion), `elif line.sub_recipe_id and
line.quantity:`, else cost 0.  A falsy float quantity is quantity = 0. -/
def computeLineCost (convert : Nat → Nat → ℚ → Option ℚ) (line : RecipeLine) : ℚ :=
  match line.ingredient_id with
  | some ing =>
    if line.quantity ≠ 0 then
      match line.uom_id, ing.uom_id with
      | some u, some iu =>
        match convert u iu line.quantity with
        | some q => q * ing.price
        | none => line.quantity * ing.price
      | some _, none => line.quantity * ing.price
      | none, _ => line.quantity * ing.price
    else 0
  | none =>
    match line.sub_recipe_id with
    | some sub => if line.quantity ≠ 0 then line.quantity * sub.total_cost else 0
    | none => 0

/-- A recipe (recipe.recipe) as read by Recipe._compute_costs: its lines,
labor and energy hours, the two manual costs, and the portion count
(an Integer field; Python truthiness of portions is portions ≠ 0). -/
structure Recipe where
  line_ids : List RecipeLine
  labor_hours : ℚ
  energy_hours : ℚ
  packaging_cost : ℚ
  extra_cost : ℚ
  portions : Int
deriving Repr, DecidableEq

/-- The seven derived fields written by Recipe._compute_costs. -/
structure CostResults where
  ingredient_cost : ℚ
  labor_cost : ℚ
  energy_cost : ℚ
  total_cost : ℚ
  grand_total : ℚ
  cost_per_portion : ℚ
  cost_per_portion_no_labor : ℚ
deriving Repr, DecidableEq

/-- Recipe._compute_costs for one recipe.  The stored line.cost values it sums
are exactly the _compute_cost outputs, so they are recomputed here inline;
labor_rate and energy_rate are the two ir.config_parameter values. -/
def computeCosts (labor_rate energy_rate : ℚ) (convert : Nat → Nat → ℚ → Option ℚ)
    (r : Recipe) : CostResults :=
  let ingredient_cost := (r.line_ids.map (computeLineCost convert)).sum
  let labor_cost := r.labor_hours * labor_rate
  let energy_cost := r.energy_hours * energy_rate
  let total_cost := ingredient_cost + energy_cost + r.packaging_cost + r.extra_cost
  let grand_total := total_cost + labor_cost
  let cost_per_portion_no_labor := if r.portions ≠ 0 then total_cost / (r.portions : ℚ) else 0
  let cost_per_portion := if r.portions ≠ 0 then grand_total / (r.portions : ℚ) else 0
  ⟨ingredient_cost, labor_cost, energy_cost, total_cost, grand_total,
    cost_per_portion, cost_per_portion_no_labor⟩

/-
Ingredient importer (wizard/ingredient_import.py).

The importer runs inside the host ORM; the registries it queries or writes
(units of measure via env.ref and search, ingredient categories, partner
contacts, ingredients) are modelled explicitly.  Python dict rows produced by
csv.DictReader are modelled as association lists of header name to cell value
(headers already lowercased and stripped, as action_import normalises them
before the loop).  Python str builtins map to: strip → pyStrip, lower →
pyLower, "".replace of the single character comma by a period →
character-wise map (pyReplaceCommaDot).  The stdlib float() constructor is
modelled on finite decimal literals (sign, digits, optional fraction,
optional exponent); the inf/nan words and underscore separators it also
accepts fall outside the prices this importer is meant to parse and outside
the claims.  datetime.strptime over the five formats is a host stdlib
collaborator and is abstracted as ImpEnv.strptime (none when every format
fails); fields.Date.today is ImpEnv.today.
-/

/-- A unit-of-measure record (uom.uom) as the importer sees it. -/
structure UomRec where
  id : Nat
  name : String
deriving Repr, DecidableEq

/-- An ingredient category record (recipe.ingredient.category). -/
structure CatRec where
  id : Nat
  name : String
deriving Repr, DecidableEq

/-- A partner record (res.partner) used as supplier. -/
structure PartnerRec where
  id : Nat
  name : String
deriving Repr, DecidableEq

/-- An ingredient record (recipe.ingredient).  Fields the importer never
writes (active, notes) are kept to express frame properties; model defaults
mirror the field declarations (code/category/supplier/price_date unset,
active true). -/
structure IngredientRec where
  id : Nat
  code : Option String
  name : String
  price : ℚ
  price_date : Option Nat
  uom_id : Nat
  category_id : Option Nat
  supplier_id : Option Nat
  active : Bool
  notes : Option String
deriving Repr, DecidableEq

/-- External collaborators of the wizard: the UoM registry (env.ref by xmlid
and name search), the stdlib date parser over the five formats, and the
current date. -/
structure ImpEnv where
  uoms : List UomRec
  xmlidRef : String → Option UomRec
  strptime : String → Option Nat
  today : Nat

/-- One CSV data row after DictReader: header name to cell value. -/
structure Row where
  cells : List (String × String)

/-- Python dict.get with a default. -/
def Row.get (r : Row) (k d : String) : String :=
  match r.cells.find? (fun p => p.1 = k) with
  | some p => p.2
  | none => d

/-- Python s.lower(), character-wise (list-based so that concrete instances
reduce). -/
def pyLower (s : String) : String :=
  ⟨s.data.map Char.toLower⟩

/-- Python s.strip(): drop whitespace from both ends. -/
def pyStrip (s : String) : String :=
  ⟨((s.data.dropWhile Char.isWhitespace).reverse.dropWhile
      Char.isWhitespace).reverse⟩

/-- Python s.replace of comma by period: the pattern is a single character,
so it is a character-wise substitution. -/
def pyReplaceCommaDot (s : String) : String :=
  ⟨s.toList.map (fun c => if c = ',' then '.' else c)⟩

/-- Value of a digit string, most significant first. -/
def digitsVal (l : List Char) : Nat :=
  l.foldl (fun a c => a * 10 + (c.toNat - 48)) 0

/-- Model of Python float() on finite decimal literals: optional sign, digits
with an optional single point (at least one digit overall), and an optional
exponent part; none when the string is not of that shape (ValueError). -/
def parsePyFloat (s : String) : Option ℚ :=
  let cs := s.toList
  let sgn : ℚ := match cs with
    | '-' :: _ => -1
    | _ => 1
  let cs1 : List Char := match cs with
    | '-' :: r => r
    | '+' :: r => r
    | _ => cs
  let ip := cs1.takeWhile (fun c => c.isDigit)
  let r1 := cs1.dropWhile (fun c => c.isDigit)
  let fp : List Char := match r1 with
    | '.' :: r => r.takeWhile (fun c => c.isDigit)
    | _ => []
  let r2 : List Char := match r1 with
    | '.' :: r => r.dropWhile (fun c => c.isDigit)
    | _ => r1
  if ip.isEmpty ∧ fp.isEmpty then none
  else
    let mant : ℚ := sgn * ((digitsVal ip : ℚ) + (digitsVal fp : ℚ) / (10 : ℚ) ^ fp.length)
    match r2 with
    | [] => some mant
    | e :: r3 =>
      if e = 'e' ∨ e = 'E' then
        let eneg : Bool := match r3 with
          | '-' :: _ => true
          | _ => false
        let r4 : List Char := match r3 with
          | '-' :: r => r
          | '+' :: r => r
          | _ => r3
        let ed := r4.takeWhile (fun c => c.isDigit)
        let r5 := r4.dropWhile (fun c => c.isDigit)
        if ed.isEmpty ∨ ¬ r5.isEmpty then none
        else some (if eneg then mant / (10 : ℚ) ^ digitsVal ed
                   else mant * (10 : ℚ) ^ digitsVal ed)
      else none

/-- The UOM_MAPPING class dictionary: unit synonym to xmlid. -/
def UOM_MAPPING : List (String × String) :=
  [("kg", "uom.product_uom_kgm"),
   ("kilo", "uom.product_uom_kgm"),
   ("kilogram", "uom.product_uom_kgm"),
   ("g", "uom.product_uom_gram"),
   ("gram", "uom.product_uom_gram"),
   ("l", "uom.product_uom_litre"),
   ("liter", "uom.product_uom_litre"),
   ("litre", "uom.product_uom_litre"),
   ("ml", "uom.product_uom_millilitre"),
   ("milliliter", "uom.product_uom_millilitre"),
   ("millilitre", "uom.product_uom_millilitre"),
   ("unit", "uom.product_uom_unit"),
   ("units", "uom.product_uom_unit"),
   ("pcs", "uom.product_uom_unit"),
   ("piece", "uom.product_uom_unit"),
   ("dozen", "uom.product_uom_dozen")]

/-- IngredientImport._get_uom: empty name is falsy (False); otherwise check
the synonym mapping (resolving its xmlid via env.ref, which can miss), and
when that yields no unit, search units by case-insensitive exact name. -/
def get_uom (ext : ImpEnv) (uom_name : String) : Option UomRec :=
  if uom_name = "" then none
  else
    let lw := pyStrip (pyLower uom_name)
    let viaMap : Option UomRec :=
      match UOM_MAPPING.find? (fun p => p.1 = lw) with
      | some p => ext.xmlidRef p.2
      | none => none
    match viaMap with
    | some u => some u
    | none => ext.uoms.find? (fun r => pyLower r.name = pyLower uom_name)

/-- IngredientImport._parse_date: empty string is falsy; otherwise the first
of the five formats that parses the stripped string, none when all fail. -/
def parse_date (ext : ImpEnv) (date_str : String) : Option Nat :=
  if date_str = "" then none
  else ext.strptime (pyStrip date_str)

/-- The mutable registries the import loop reads and writes, plus the created
and updated counters.  Fresh ids stand for the sequences the ORM would
allocate on create. -/
structure ImportCore where
  ingredients : List IngredientRec
  categories : List CatRec
  partners : List PartnerRec
  nextIngId : Nat
  nextCatId : Nat
  nextPartnerId : Nat
  created : Nat
  updated : Nat
deriving Repr, DecidableEq

/-- IngredientImport._get_or_create_category for a non-empty name:
case-insensitive exact name search, create when absent. -/
def getOrCreateCategory (c : ImportCore) (nm : String) : Nat × ImportCore :=
  match c.categories.find? (fun k => pyLower k.name = pyLower (pyStrip nm)) with
  | some k => (k.id, c)
  | none =>
    (c.nextCatId,
      { c with categories := c.categories ++ [⟨c.nextCatId, pyStrip nm⟩],
               nextCatId := c.nextCatId + 1 })

/-- IngredientImport._get_or_create_supplier for a non-empty name. -/
def getOrCreatePartner (c : ImportCore) (nm : String) : Nat × ImportCore :=
  match c.partners.find? (fun k => pyLower k.name = pyLower (pyStrip nm)) with
  | some k => (k.id, c)
  | none =>
    (c.nextPartnerId,
      { c with partners := c.partners ++ [⟨c.nextPartnerId, pyStrip nm⟩],
               nextPartnerId := c.nextPartnerId + 1 })

/-- Ingredient search by exact code match (code unset never matches). -/
def findByCode (db : List IngredientRec) (cd : String) : Option IngredientRec :=
  db.find? (fun r => r.code = some cd)

/-- Ingredient search by case-insensitive exact name match. -/
def findByName (db : List IngredientRec) (nm : String) : Option IngredientRec :=
  db.find? (fun r => pyLower r.name = pyLower nm)

/-- The upsert lookup of action_import: by exact code when a code was
supplied, and by case-insensitive name only when that found nothing. -/
def lookupIngredient (db : List IngredientRec) (code nm : String) :
    Option IngredientRec :=
  match (if code ≠ "" then findByCode db code else none) with
  | some r => some r
  | none => findByName db nm

/-- The vals dict built for write/create: name, price, uom_id and price_date
are always present; code, category_id and supplier_id only conditionally. -/
structure Vals where
  name : String
  price : ℚ
  uom_id : Nat
  price_date : Nat
  code : Option String
  category_id : Option Nat
  supplier_id : Option Nat
deriving Repr, DecidableEq

/-- ingredient.write(vals): fields present in vals overwrite, the rest keep
their stored values. -/
def writeVals (r : IngredientRec) (v : Vals) : IngredientRec :=
  { r with
    name := v.name
    price := v.price
    uom_id := v.uom_id
    price_date := some v.price_date
    code := match v.code with | some cd => some cd | none => r.code
    category_id := match v.category_id with | some k => some k | none => r.category_id
    supplier_id := match v.supplier_id with | some k => some k | none => r.supplier_id }

/-- Ingredient.create(vals): fields absent from vals take model defaults. -/
def createRec (idn : Nat) (v : Vals) : IngredientRec :=
  { id := idn
    code := v.code
    name := v.name
    price := v.price
    price_date := some v.price_date
    uom_id := v.uom_id
    category_id := v.category_id
    supplier_id := v.supplier_id
    active := true
    notes := none }

/-- The error strings are f"Row {row_num}: {text}". -/
def mkRowErr (n : Nat) (text : String) : String :=
  "Row " ++ toString n ++ ": " ++ text

/-- The category and supplier resolution of one valid row: get-or-create
each, only when the column value is non-empty (the code guards both with a
conditional expression), threading the registries. -/
def resolveCatSup (c : ImportCore) (row : Row) : Option Nat × Option Nat × ImportCore :=
  let category_name := pyStrip (row.get "category" "")
  let supplier_name := pyStrip (row.get "supplier" "")
  let catRes : Option Nat × ImportCore :=
    if category_name ≠ "" then
      let r := getOrCreateCategory c category_name
      (some r.1, r.2)
    else (none, c)
  let supRes : Option Nat × ImportCore :=
    if supplier_name ≠ "" then
      let r := getOrCreatePartner catRes.2 supplier_name
      (some r.1, r.2)
    else (none, catRes.2)
  (catRes.1, supRes.1, supRes.2)

/-- The vals dict of one valid row: name, price, uom_id and price_date are
always present (the date defaulting to today when unparsed or absent); code,
category_id and supplier_id only when resolved. -/
def rowVals (ext : ImpEnv) (row : Row) (price : ℚ) (uom : UomRec)
    (category supplier : Option Nat) : Vals :=
  { name := pyStrip (row.get "name" "")
    price := price
    uom_id := uom.id
    price_date := (parse_date ext (pyStrip (row.get "date" ""))).getD ext.today
    code := if pyStrip (row.get "code" "") ≠ "" then some (pyStrip (row.get "code" ""))
            else none
    category_id := category
    supplier_id := supplier }

/-- The success path of one row of action_import, after the name, unit-name,
price and unit-lookup validations have passed: resolve category and supplier,
build vals, and upsert by the code-then-name lookup. -/
def processValidRow (ext : ImpEnv) (c : ImportCore) (row : Row) (price : ℚ)
    (uom : UomRec) : ImportCore :=
  let rcs := resolveCatSup c row
  let c2 := rcs.2.2
  let vals := rowVals ext row price uom rcs.1 rcs.2.1
  match lookupIngredient c2.ingredients (pyStrip (row.get "code" ""))
      (pyStrip (row.get "name" "")) with
  | some r =>
    { c2 with
      ingredients := c2.ingredients.map
        (fun x => if x.id = r.id then writeVals x vals else x)
      updated := c2.updated + 1 }
  | none =>
    { c2 with
      ingredients := c2.ingredients ++ [createRec c2.nextIngId vals]
      nextIngId := c2.nextIngId + 1
      created := c2.created + 1 }

/-- Which of the four per-row validations a row fails, with the error text of
the code, or none when the row reaches the upsert.  The checks appear in the
order of action_import: missing name, missing unit of measure, invalid price,
unknown unit. -/
def rowFailKind (ext : ImpEnv) (row : Row) : Option String :=
  let name := pyStrip (row.get "name" "")
  let price_str := pyStrip (row.get "price" "0")
  let uom_name := pyStrip (row.get "uom" (row.get "unit" ""))
  if name = "" then some "Missing name"
  else if uom_name = "" then some "Missing unit of measure"
  else
    match parsePyFloat (pyReplaceCommaDot price_str) with
    | none => some ("Invalid price \x27" ++ price_str ++ "\x27")
    | some _ =>
      match get_uom ext uom_name with
      | none => some ("Unknown UoM \x27" ++ uom_name ++ "\x27")
      | some _ => none

/-- One iteration of the row loop of action_import on the registries and
counters: either the row fails a validation, leaving the registries untouched
and producing exactly one error string, or the row is upserted. -/
def processRowStep (ext : ImpEnv) (c : ImportCore) (rowNum : Nat) (row : Row) :
    ImportCore × List String :=
  let name := pyStrip (row.get "name" "")
  let price_str := pyStrip (row.get "price" "0")
  let uom_name := pyStrip (row.get "uom" (row.get "unit" ""))
  if name = "" then (c, [mkRowErr rowNum "Missing name"])
  else if uom_name = "" then (c, [mkRowErr rowNum "Missing unit of measure"])
  else
    match parsePyFloat (pyReplaceCommaDot price_str) with
    | none => (c, [mkRowErr rowNum ("Invalid price \x27" ++ price_str ++ "\x27")])
    | some price =>
      match get_uom ext uom_name with
      | none => (c, [mkRowErr rowNum ("Unknown UoM \x27" ++ uom_name ++ "\x27")])
      | some uom => (processValidRow ext c row price uom, [])

/-- The import state: registries and counters plus the accumulated error
list.  The loop body only ever appends to errors and never reads them, which
the split into processRowStep makes explicit. -/
structure ImportState where
  core : ImportCore
  errors : List String
deriving Repr, DecidableEq

/-- One row of the loop on the full state. -/
def processRow (ext : ImpEnv) (st : ImportState) (rowNum : Nat) (row : Row) :
    ImportState :=
  ⟨(processRowStep ext st.core rowNum row).1,
    st.errors ++ (processRowStep ext st.core rowNum row).2⟩

/-- The row loop: row_num starts at 1 (the header row) and is incremented
before each data row, so the first data row is row 2. -/
def importRows (ext : ImpEnv) : ImportState → Nat → List Row → ImportState
  | st, _, [] => st
  | st, rowNum, r :: rs =>
    importRows ext (processRow ext st (rowNum + 1) r) (rowNum + 1) rs

/-- The result_lines list of action_import: the summary with both counters,
then, when there are errors, a header with the total, the first 20 error
strings, and an overflow line when more than 20 occurred. -/
def buildResultLines (created updated : Nat) (errors : List String) :
    List String :=
  let base := ["Import completed!",
               "Created: " ++ toString created,
               "Updated: " ++ toString updated]
  if errors.isEmpty then base
  else
    base ++ ["\nErrors (" ++ toString errors.length ++ "):"]
      ++ errors.take 20
      ++ (if 20 < errors.length then
            ["... and " ++ toString (errors.length - 20) ++ " more errors"]
          else [])

/-- action_import on decoded rows: run the loop from the given registries
with row_num 1 and zeroed counters and empty errors, then join the result
lines with newlines into result_message. -/
def action_import (ext : ImpEnv) (c : ImportCore) (rows : List Row) :
    ImportState × String :=
  let st := importRows ext ⟨{ c with created := 0, updated := 0 }, []⟩ 1 rows
  (st, String.intercalate "\n"
    (buildResultLines st.core.created st.core.updated st.errors))

/-
Concrete fixtures used by the closed witnesses and counterexamples.
-/

def envNoXmlids : ImpEnv :=
  { uoms := [⟨7, "kg"⟩]
    xmlidRef := fun _ => none
    strptime := fun _ => none
    today := 0 }

def exampleEnv : ImpEnv :=
  { uoms := [⟨1, "kg"⟩]
    xmlidRef := fun s => if s = "uom.product_uom_kgm" then some ⟨1, "kg"⟩ else none
    strptime := fun _ => none
    today := 777 }

def flourRec : IngredientRec :=
  ⟨10, none, "Flour", 5, some 100, 1, none, none, true, none⟩

def exampleCore : ImportCore :=
  { ingredients := [flourRec]
    categories := []
    partners := []
    nextIngId := 11
    nextCatId := 0
    nextPartnerId := 0
    created := 0
    updated := 0 }

def rowNoPriceDate : Row := ⟨[("name", "Flour"), ("uom", "kg")]⟩

def rowFlourPrice : Row := ⟨[("name", "Flour"), ("uom", "kg"), ("price", "12,50")]⟩

def rowCodeA : Row :=
  ⟨[("code", "ING1"), ("name", "Sugar"), ("uom", "kg"), ("price", "1")]⟩

def rowCodeB : Row :=
  ⟨[("code", "ING1"), ("name", "Sugar Brown"), ("uom", "kg"), ("price", "2")]⟩

def rowBadPrice : Row := ⟨[("name", "Salt"), ("uom", "kg"), ("price", "abc")]⟩

def rowNoUom : Row := ⟨[("name", "Pepper")]⟩

def manyErrs : List String := List.replicate 21 "E"

/-
Helper lemmas about the row pipeline.
-/

theorem getOrCreateCategory_spec (c : ImportCore) (nm : String) :
    ∃ cats nid, (getOrCreateCategory c nm).2
      = { c with categories := cats, nextCatId := nid } := by
  unfold getOrCreateCategory
  split
  · exact ⟨c.categories, c.nextCatId, by simp⟩
  · exact ⟨c.categories ++ [⟨c.nextCatId, pyStrip nm⟩], c.nextCatId + 1, by simp⟩

theorem getOrCreatePartner_spec (c : ImportCore) (nm : String) :
    ∃ ps nid, (getOrCreatePartner c nm).2
      = { c with partners := ps, nextPartnerId := nid } := by
  unfold getOrCreatePartner
  split
  · exact ⟨c.partners, c.nextPartnerId, by simp⟩
  · exact ⟨c.partners ++ [⟨c.nextPartnerId, pyStrip nm⟩], c.nextPartnerId + 1, by simp⟩

theorem resolveCatSup_spec (c : ImportCore) (row : Row) :
    ∃ cats nc ps np, (resolveCatSup c row).2.2
      = { c with categories := cats, nextCatId := nc,
                 partners := ps, nextPartnerId := np } := by
  unfold resolveCatSup
  simp only []
  by_cases h1 : pyStrip (row.get "category" "") = "" <;>
    by_cases h2 : pyStrip (row.get "supplier" "") = "" <;>
      simp only [h1, h2, if_pos, if_neg, ne_eq, not_true_eq_false, not_false_eq_true,
        ite_true, ite_false]
  · exact ⟨c.categories, c.nextCatId, c.partners, c.nextPartnerId, by simp⟩
  · obtain ⟨ps, np, hp⟩ := getOrCreatePartner_spec c (pyStrip (row.get "supplier" ""))
    exact ⟨c.categories, c.nextCatId, ps, np, by simp [hp]⟩
  · obtain ⟨cats, nc, hc⟩ := getOrCreateCategory_spec c (pyStrip (row.get "category" ""))
    exact ⟨cats, nc, c.partners, c.nextPartnerId, by simp [hc]⟩
  · obtain ⟨cats, nc, hc⟩ := getOrCreateCategory_spec c (pyStrip (row.get "category" ""))
    obtain ⟨ps, np, hp⟩ := getOrCreatePartner_spec
      (getOrCreateCategory c (pyStrip (row.get "category" ""))).2
      (pyStrip (row.get "supplier" ""))
    refine ⟨cats, nc, ps, np, ?_⟩
    rw [hp, hc]

theorem resolveCatSup_none (c : ImportCore) (row : Row)
    (hcat : pyStrip (row.get "category" "") = "")
    (hsup : pyStrip (row.get "supplier" "") = "") :
    resolveCatSup c row = (none, none, c) := by
  unfold resolveCatSup
  simp [hcat, hsup]

theorem processRowStep_fail (ext : ImpEnv) (row : Row) (s : String)
    (h : rowFailKind ext row = some s) (c : ImportCore) (n : Nat) :
    processRowStep ext c n row = (c, [mkRowErr n s]) := by
  unfold rowFailKind at h
  unfold processRowStep
  simp only [] at h ⊢
  split at h
  next h1 =>
    simp only [Option.some.injEq] at h
    simp [h1, ← h]
  next h1 =>
    split at h
    next h2 =>
      simp only [Option.some.injEq] at h
      simp [h1, h2, ← h]
    next h2 =>
      split at h
      next heq =>
        simp only [Option.some.injEq] at h
        simp [h1, h2, heq, ← h]
      next price heq =>
        split at h
        next hu =>
          simp only [Option.some.injEq] at h
          simp [h1, h2, heq, hu, ← h]
        next u hu =>
          simp at h

theorem processRowStep_success (ext : ImpEnv) (row : Row)
    (h : rowFailKind ext row = none) (c : ImportCore) (n : Nat) :
    ∃ price uom,
      parsePyFloat (pyReplaceCommaDot (pyStrip (row.get "price" "0"))) = some price ∧
      get_uom ext (pyStrip (row.get "uom" (row.get "unit" ""))) = some uom ∧
      processRowStep ext c n row = (processValidRow ext c row price uom, []) := by
  unfold rowFailKind at h
  unfold processRowStep
  simp only [] at h ⊢
  split at h
  next h1 => simp at h
  next h1 =>
    split at h
    next h2 => simp at h
    next h2 =>
      split at h
      next heq => simp at h
      next price heq =>
        split at h
        next hu => simp at h
        next uom hu =>
          exact ⟨price, uom, heq, hu, by simp [h1, h2, heq, hu]⟩

theorem processValidRow_found (ext : ImpEnv) (c : ImportCore) (row : Row)
    (price : ℚ) (uom : UomRec) (r : IngredientRec)
    (h : lookupIngredient c.ingredients (pyStrip (row.get "code" ""))
          (pyStrip (row.get "name" "")) = some r) :
    ∃ cats nc ps np,
      processValidRow ext c row price uom
        = { c with
            categories := cats, nextCatId := nc, partners := ps, nextPartnerId := np,
            ingredients := c.ingredients.map (fun x => if x.id = r.id then
              writeVals x (rowVals ext row price uom (resolveCatSup c row).1
                (resolveCatSup c row).2.1) else x),
            updated := c.updated + 1 } := by
  obtain ⟨cats, nc, ps, np, hcs⟩ := resolveCatSup_spec c row
  refine ⟨cats, nc, ps, np, ?_⟩
  unfold processValidRow
  simp only []
  rw [hcs]
  simp only [h]

theorem processValidRow_create (ext : ImpEnv) (c : ImportCore) (row : Row)
    (price : ℚ) (uom : UomRec)
    (h : lookupIngredient c.ingredients (pyStrip (row.get "code" ""))
          (pyStrip (row.get "name" "")) = none) :
    ∃ cats nc ps np,
      processValidRow ext c row price uom
        = { c with
            categories := cats, nextCatId := nc, partners := ps, nextPartnerId := np,
            ingredients := c.ingredients ++ [createRec c.nextIngId
              (rowVals ext row price uom (resolveCatSup c row).1
                (resolveCatSup c row).2.1)],
            nextIngId := c.nextIngId + 1,
            created := c.created + 1 } := by
  obtain ⟨cats, nc, ps, np, hcs⟩ := resolveCatSup_spec c row
  refine ⟨cats, nc, ps, np, ?_⟩
  unfold processValidRow
  simp only []
  rw [hcs]
  simp only [h]

theorem importRows_errors_accum (ext : ImpEnv) (rows : List Row) :
    ∀ (c : ImportCore) (l : List String) (m : Nat),
      importRows ext ⟨c, l⟩ m rows
        = ⟨(importRows ext ⟨c, []⟩ m rows).core,
           l ++ (importRows ext ⟨c, []⟩ m rows).errors⟩ := by
  induction rows with
  | nil =>
    intro c l m
    simp [importRows]
  | cons r rs ih =>
    intro c l m
    simp only [importRows, processRow]
    rw [ih (processRowStep ext c (m + 1) r).1
          (l ++ (processRowStep ext c (m + 1) r).2) (m + 1),
        ih (processRowStep ext c (m + 1) r).1
          ([] ++ (processRowStep ext c (m + 1) r).2) (m + 1)]
    simp

theorem findByCode_append (db1 db2 : List IngredientRec) (cd : String) :
    findByCode (db1 ++ db2) cd
      = match findByCode db1 cd with
        | some r => some r
        | none => findByCode db2 cd := by
  unfold findByCode
  rw [List.find?_append]
  cases db1.find? (fun r => r.code = some cd) <;> rfl

/-- C1: for every recipe line, if an ingredient is referenced and quantity is
non-falsy the cost is the converted quantity times the ingredient's price,
falling back to raw quantity times price when conversion fails or either unit
is unset; if instead a sub-recipe is referenced (ingredient unset) with
non-falsy quantity the cost is quantity times the sub-recipe's total_cost;
otherwise (quantity falsy, or neither reference set) the cost is 0. -/
theorem claim_C1 (convert : Nat → Nat → ℚ → Option ℚ) (line : RecipeLine) :
    (∀ ing, line.ingredient_id = some ing → line.quantity ≠ 0 →
      (∀ u iu, line.uom_id = some u → ing.uom_id = some iu →
        (∀ q, convert u iu line.quantity = some q →
          computeLineCost convert line = q * ing.price) ∧
        (convert u iu line.quantity = none →
          computeLineCost convert line = line.quantity * ing.price)) ∧
      ((line.uom_id = none ∨ ing.uom_id = none) →
        computeLineCost convert line = line.quantity * ing.price)) ∧
    (∀ sub, line.ingredient_id = none → line.sub_recipe_id = some sub →
      line.quantity ≠ 0 →
      computeLineCost convert line = line.quantity * sub.total_cost) ∧
    (line.quantity = 0 → computeLineCost convert line = 0) ∧
    (line.ingredient_id = none → line.sub_recipe_id = none →
      computeLineCost convert line = 0) := by
  refine ⟨?_, ?_, ?_, ?_⟩
  · intro ing hing hq
    constructor
    · intro u iu hu hiu
      constructor
      · intro q hconv
        simp [computeLineCost, hing, hq, hu, hiu, hconv]
      · intro hconv
        simp [computeLineCost, hing, hq, hu, hiu, hconv]
    · intro hcase
      rcases hcase with hu | hiu
      · simp [computeLineCost, hing, hq, hu]
      · rcases hu : line.uom_id with _ | u
        · simp [computeLineCost, hing, hq, hu]
        · simp [computeLineCost, hing, hq, hu, hiu]
  · intro sub hing hsub hq
    simp [computeLineCost, hing, hsub, hq]
  · intro hq
    rcases hing : line.ingredient_id with _ | ing
    · rcases hsub : line.sub_recipe_id with _ | sub
      · simp [computeLineCost, hing, hsub]
      · simp [computeLineCost, hing, hsub, hq]
    · simp [computeLineCost, hing, hq]
  · intro hing hsub
    simp [computeLineCost, hing, hsub]

/-- Witness for C1 at a concrete line: ingredient priced 3 per kg, 2 units of
a line UoM that converts to 5 kg, so the cost is 5 * 3 = 15. -/
theorem claim_C1_witness :
    computeLineCost (fun _ _ _ => some 5)
      ⟨some ⟨3, some 1⟩, none, 2, some 2⟩ = 5 * 3 :=
  (((claim_C1 (fun _ _ _ => some 5) ⟨some ⟨3, some 1⟩, none, 2, some 2⟩).1
    ⟨3, some 1⟩ rfl (by norm_num)).1 2 1 rfl rfl).1 5 rfl

/-- C2: after a cost recompute the derived fields satisfy, exactly and for all
inputs: ingredient_cost is the sum of the line costs, labor_cost is
labor_hours * labor_rate, energy_cost is energy_hours * energy_rate,
total_cost is ingredient_cost + energy_cost + packaging_cost + extra_cost and
grand_total is total_cost + labor_cost.  Proved for arbitrary inputs, which
subsumes the claim's arbitrary non-negative inputs. -/
theorem claim_C2 (labor_rate energy_rate : ℚ) (convert : Nat → Nat → ℚ → Option ℚ)
    (r : Recipe) :
    (computeCosts labor_rate energy_rate convert r).ingredient_cost
        = (r.line_ids.map (computeLineCost convert)).sum ∧
    (computeCosts labor_rate energy_rate convert r).labor_cost
        = r.labor_hours * labor_rate ∧
    (computeCosts labor_rate energy_rate convert r).energy_cost
        = r.energy_hours * energy_rate ∧
    (computeCosts labor_rate energy_rate convert r).total_cost
        = (computeCosts labor_rate energy_rate convert r).ingredient_cost
          + (computeCosts labor_rate energy_rate convert r).energy_cost
          + r.packaging_cost + r.extra_cost ∧
    (computeCosts labor_rate energy_rate convert r).grand_total
        = (computeCosts labor_rate energy_rate convert r).total_cost
          + (computeCosts labor_rate energy_rate convert r).labor_cost := by
  refine ⟨rfl, rfl, rfl, rfl, rfl⟩

/-- C3: with portions = 0 the recompute substitutes 0 for both per-portion
fields instead of dividing; with portions ≠ 0 it divides grand_total and
total_cost by portions.  computeCosts is a total function, so no exception is
raised in either case. -/
theorem claim_C3 (labor_rate energy_rate : ℚ) (convert : Nat → Nat → ℚ → Option ℚ)
    (r : Recipe) :
    (r.portions = 0 →
      (computeCosts labor_rate energy_rate convert r).cost_per_portion = 0 ∧
      (computeCosts labor_rate energy_rate convert r).cost_per_portion_no_labor = 0) ∧
    (r.portions ≠ 0 →
      (computeCosts labor_rate energy_rate convert r).cost_per_portion
        = (computeCosts labor_rate energy_rate convert r).grand_total / (r.portions : ℚ) ∧
      (computeCosts labor_rate energy_rate convert r).cost_per_portion_no_labor
        = (computeCosts labor_rate energy_rate convert r).total_cost / (r.portions : ℚ)) := by
  constructor
  · intro h0
    constructor <;> simp [computeCosts, h0]
  · intro h0
    constructor <;> simp [computeCosts, h0]

/-- Witness for C3 at two concrete recipes: one with portions 0 (per-portion
fields 0) and one with portions 4 (per-portion fields are the quotients). -/
theorem claim_C3_witness :
    ((computeCosts 0 0 (fun _ _ _ => none) ⟨[], 0, 0, 8, 0, 0⟩).cost_per_portion = 0 ∧
      (computeCosts 0 0 (fun _ _ _ => none)
        ⟨[], 0, 0, 8, 0, 0⟩).cost_per_portion_no_labor = 0) ∧
    ((computeCosts 0 0 (fun _ _ _ => none) ⟨[], 0, 0, 8, 0, 4⟩).cost_per_portion
        = (computeCosts 0 0 (fun _ _ _ => none) ⟨[], 0, 0, 8, 0, 4⟩).grand_total / 4 ∧
      (computeCosts 0 0 (fun _ _ _ => none) ⟨[], 0, 0, 8, 0, 4⟩).cost_per_portion_no_labor
        = (computeCosts 0 0 (fun _ _ _ => none) ⟨[], 0, 0, 8, 0, 4⟩).total_cost / 4) :=
  ⟨(claim_C3 0 0 (fun _ _ _ => none) ⟨[], 0, 0, 8, 0, 0⟩).1 rfl,
    (claim_C3 0 0 (fun _ _ _ => none) ⟨[], 0, 0, 8, 0, 4⟩).2 (by norm_num)⟩

/-- C10: when both an ingredient and a sub-recipe reference are set on a line
with non-falsy quantity, the cost uses the ingredient branch and ignores the
sub-recipe entirely: the cost equals that of the same line with the
sub-recipe reference cleared, and is invariant under any change of the
sub-recipe reference. -/
theorem claim_C10 (convert : Nat → Nat → ℚ → Option ℚ) (line : RecipeLine)
    (ing : CIngredient) (sub : CSubRecipe)
    (hing : line.ingredient_id = some ing)
    (hsub : line.sub_recipe_id = some sub)
    (hq : line.quantity ≠ 0) :
    computeLineCost convert line
      = computeLineCost convert { line with sub_recipe_id := none } ∧
    ∀ other : Option CSubRecipe,
      computeLineCost convert { line with sub_recipe_id := other }
        = computeLineCost convert line := by
  constructor
  · simp [computeLineCost, hing]
  · intro other
    simp [computeLineCost, hing]

/-- Witness for C10: a line referencing both an ingredient (price 3, no unit
set on the line, so raw quantity * price) and a sub-recipe of total_cost 100
costs the same as the ingredient-only line. -/
theorem claim_C10_witness :
    computeLineCost (fun _ _ _ => none) ⟨some ⟨3, some 1⟩, some ⟨100⟩, 2, none⟩
      = computeLineCost (fun _ _ _ => none)
          ⟨some ⟨3, some 1⟩, (none : Option CSubRecipe), 2, none⟩ :=
  (claim_C10 (fun _ _ _ => none) ⟨some ⟨3, some 1⟩, some ⟨100⟩, 2, none⟩
    ⟨3, some 1⟩ ⟨100⟩ rfl rfl (by norm_num)).1

/-- C4: for every import row passing validation, the upsert looks up an
existing ingredient first by exact code match when a code value was supplied,
and only when that finds nothing by case-insensitive exact name match; a
found ingredient is written and counted as updated, otherwise one is created
and counted as created; and two valid rows with the same code but different
names, against a registry containing neither, leave one new record that the
second row updated in place (created and updated each incremented once). -/
theorem claim_C4 :
    (∀ (db : List IngredientRec) (cd nm : String) r, cd ≠ "" →
      findByCode db cd = some r → lookupIngredient db cd nm = some r) ∧
    (∀ (db : List IngredientRec) (cd nm : String),
      cd = "" ∨ findByCode db cd = none →
      lookupIngredient db cd nm = findByName db nm) ∧
    (∀ (ext : ImpEnv) (c : ImportCore) (n : Nat) (row : Row) price uom r,
      pyStrip (row.get "name" "") ≠ "" →
      pyStrip (row.get "uom" (row.get "unit" "")) ≠ "" →
      parsePyFloat (pyReplaceCommaDot (pyStrip (row.get "price" "0"))) = some price →
      get_uom ext (pyStrip (row.get "uom" (row.get "unit" ""))) = some uom →
      lookupIngredient c.ingredients (pyStrip (row.get "code" ""))
        (pyStrip (row.get "name" "")) = some r →
      (processRowStep ext c n row).1.updated = c.updated + 1 ∧
      (processRowStep ext c n row).1.created = c.created) ∧
    (∀ (ext : ImpEnv) (c : ImportCore) (n : Nat) (row : Row) price uom,
      pyStrip (row.get "name" "") ≠ "" →
      pyStrip (row.get "uom" (row.get "unit" "")) ≠ "" →
      parsePyFloat (pyReplaceCommaDot (pyStrip (row.get "price" "0"))) = some price →
      get_uom ext (pyStrip (row.get "uom" (row.get "unit" ""))) = some uom →
      lookupIngredient c.ingredients (pyStrip (row.get "code" ""))
        (pyStrip (row.get "name" "")) = none →
      (processRowStep ext c n row).1.created = c.created + 1 ∧
      (processRowStep ext c n row).1.updated = c.updated) ∧
    (∀ (ext : ImpEnv) (c : ImportCore) (row1 row2 : Row),
      rowFailKind ext row1 = none →
      rowFailKind ext row2 = none →
      pyStrip (row2.get "code" "") = pyStrip (row1.get "code" "") →
      pyStrip (row1.get "code" "") ≠ "" →
      pyStrip (row1.get "name" "") ≠ pyStrip (row2.get "name" "") →
      findByCode c.ingredients (pyStrip (row1.get "code" "")) = none →
      findByName c.ingredients (pyStrip (row1.get "name" "")) = none →
      (∀ x ∈ c.ingredients, x.id ≠ c.nextIngId) →
      (importRows ext ⟨c, []⟩ 1 [row1, row2]).core.created = c.created + 1 ∧
      (importRows ext ⟨c, []⟩ 1 [row1, row2]).core.updated = c.updated + 1 ∧
      (importRows ext ⟨c, []⟩ 1 [row1, row2]).errors = [] ∧
      ∃ v1 v2 : Vals,
        (importRows ext ⟨c, []⟩ 1 [row1, row2]).core.ingredients
          = c.ingredients ++ [writeVals (createRec c.nextIngId v1) v2] ∧
        v2.name = pyStrip (row2.get "name" "")) := by
  refine ⟨?_, ?_, ?_, ?_, ?_⟩
  · intro db cd nm r hcd hfind
    unfold lookupIngredient
    simp [hcd, hfind]
  · intro db cd nm h
    unfold lookupIngredient
    rcases h with h | h
    · simp [h]
    · by_cases hcd : cd = "" <;> simp [hcd, h]
  · intro ext c n row price uom r hname huom hp hu hlook
    have hstep : processRowStep ext c n row
        = (processValidRow ext c row price uom, []) := by
      unfold processRowStep
      simp only []
      simp [hname, huom, hp, hu]
    obtain ⟨cats, nc, ps, np, hpv⟩ :=
      processValidRow_found ext c row price uom r hlook
    rw [hstep]
    simp [hpv]
  · intro ext c n row price uom hname huom hp hu hlook
    have hstep : processRowStep ext c n row
        = (processValidRow ext c row price uom, []) := by
      unfold processRowStep
      simp only []
      simp [hname, huom, hp, hu]
    obtain ⟨cats, nc, ps, np, hpv⟩ :=
      processValidRow_create ext c row price uom hlook
    rw [hstep]
    simp [hpv]
  · intro ext c row1 row2 hvr1 hvr2 hcdeq hcd hnames hnoCode hnoName hfresh
    obtain ⟨p1, u1, hp1, hu1, hstep1⟩ := processRowStep_success ext row1 hvr1 c 2
    have hlook1 : lookupIngredient c.ingredients (pyStrip (row1.get "code" ""))
        (pyStrip (row1.get "name" "")) = none := by
      unfold lookupIngredient
      simp [hcd, hnoCode, hnoName]
    obtain ⟨cats1, nc1, ps1, np1, hc1⟩ :=
      processValidRow_create ext c row1 p1 u1 hlook1
    have h1 : importRows ext ⟨c, []⟩ 1 [row1, row2]
        = importRows ext ⟨processValidRow ext c row1 p1 u1, []⟩ 2 [row2] := by
      show importRows ext (processRow ext ⟨c, []⟩ 2 row1) 2 [row2] = _
      unfold processRow
      rw [hstep1]
      simp
    have hing1 : (processValidRow ext c row1 p1 u1).ingredients
        = c.ingredients ++ [createRec c.nextIngId
            (rowVals ext row1 p1 u1 (resolveCatSup c row1).1
              (resolveCatSup c row1).2.1)] := by
      rw [hc1]
    have hcnt1 : (processValidRow ext c row1 p1 u1).created = c.created + 1 ∧
        (processValidRow ext c row1 p1 u1).updated = c.updated ∧
        (processValidRow ext c row1 p1 u1).nextIngId = c.nextIngId + 1 := by
      rw [hc1]
      exact ⟨rfl, rfl, rfl⟩
    obtain ⟨p2, u2, hp2, hu2, hstep2⟩ := processRowStep_success ext row2 hvr2
      (processValidRow ext c row1 p1 u1) 3
    have hcode_new : (createRec c.nextIngId
        (rowVals ext row1 p1 u1 (resolveCatSup c row1).1
          (resolveCatSup c row1).2.1)).code
        = some (pyStrip (row1.get "code" "")) := by
      unfold createRec rowVals
      simp [hcd]
    have hfind2 : findByCode (processValidRow ext c row1 p1 u1).ingredients
        (pyStrip (row2.get "code" ""))
        = some (createRec c.nextIngId
            (rowVals ext row1 p1 u1 (resolveCatSup c row1).1
              (resolveCatSup c row1).2.1)) := by
      rw [hing1, hcdeq, findByCode_append, hnoCode]
      unfold findByCode
      simp [hcode_new]
    have hlook2 : lookupIngredient (processValidRow ext c row1 p1 u1).ingredients
        (pyStrip (row2.get "code" "")) (pyStrip (row2.get "name" ""))
        = some (createRec c.nextIngId
            (rowVals ext row1 p1 u1 (resolveCatSup c row1).1
              (resolveCatSup c row1).2.1)) := by
      unfold lookupIngredient
      have hcd2 : pyStrip (row2.get "code" "") ≠ "" := by
        rw [hcdeq]
        exact hcd
      simp [hcd2, hfind2]
    obtain ⟨cats2, nc2, ps2, np2, hc2⟩ := processValidRow_found ext
      (processValidRow ext c row1 p1 u1) row2 p2 u2 _ hlook2
    have h2 : importRows ext ⟨processValidRow ext c row1 p1 u1, []⟩ 2 [row2]
        = ⟨processValidRow ext (processValidRow ext c row1 p1 u1) row2 p2 u2,
           []⟩ := by
      show importRows ext (processRow ext ⟨processValidRow ext c row1 p1 u1, []⟩
        3 row2) 3 [] = _
      unfold processRow
      rw [hstep2]
      simp [importRows]
    rw [h1, h2]
    refine ⟨?_, ?_, rfl, ?_⟩
    · show (processValidRow ext (processValidRow ext c row1 p1 u1) row2 p2 u2).created
        = c.created + 1
      rw [hc2]
      simp [hcnt1.1]
    · show (processValidRow ext (processValidRow ext c row1 p1 u1) row2 p2 u2).updated
        = c.updated + 1
      rw [hc2]
      simp [hcnt1.2.1]
    · refine ⟨rowVals ext row1 p1 u1 (resolveCatSup c row1).1
        (resolveCatSup c row1).2.1,
        rowVals ext row2 p2 u2
          (resolveCatSup (processValidRow ext c row1 p1 u1) row2).1
          (resolveCatSup (processValidRow ext c row1 p1 u1) row2).2.1, ?_, rfl⟩
      show (processValidRow ext (processValidRow ext c row1 p1 u1) row2 p2 u2).ingredients
        = _
      rw [hc2]
      simp only []
      rw [hing1, List.map_append]
      have hmap : ∀ (l : List IngredientRec), (∀ x ∈ l, x.id ≠ c.nextIngId) →
          l.map (fun x =>
            if x.id = (createRec c.nextIngId (rowVals ext row1 p1 u1
                (resolveCatSup c row1).1 (resolveCatSup c row1).2.1)).id then
              writeVals x (rowVals ext row2 p2 u2
                (resolveCatSup (processValidRow ext c row1 p1 u1) row2).1
                (resolveCatSup (processValidRow ext c row1 p1 u1) row2).2.1)
            else x) = l := by
        intro l hl
        induction l with
        | nil => rfl
        | cons a t ih =>
          simp only [List.map_cons]
          rw [if_neg (by simpa [createRec] using hl a (List.mem_cons_self a t)),
              ih (fun x hx => hl x (List.mem_cons_of_mem a hx))]
      rw [hmap c.ingredients hfresh]
      simp [createRec]

/-- Witness for C4: rows [code ING1, Sugar] then [code ING1, Sugar Brown] on
a registry holding only Flour yield created = 1 and updated = 1. -/
theorem claim_C4_witness :
    (importRows exampleEnv ⟨exampleCore, []⟩ 1 [rowCodeA, rowCodeB]).core.created
      = exampleCore.created + 1 ∧
    (importRows exampleEnv ⟨exampleCore, []⟩ 1 [rowCodeA, rowCodeB]).core.updated
      = exampleCore.updated + 1 ∧
    (importRows exampleEnv ⟨exampleCore, []⟩ 1 [rowCodeA, rowCodeB]).errors = [] := by
  have h := claim_C4.2.2.2.2 exampleEnv exampleCore rowCodeA rowCodeB
    (by decide) (by decide) (by decide) (by decide) (by decide) (by decide)
    (by decide) (by decide)
  exact ⟨h.1, h.2.1, h.2.2.1⟩

/-- Counterexample to C5 as stated: the vals dict always contains price and
price_date, so an update row that supplies no price and no date column does
not leave them untouched: the stored Flour record with price 5 and price
date 100 is overwritten to price 0 (the "0" default of the missing price
cell) and price date today (777). -/
theorem claim_C5_counterexample :
    exampleCore.ingredients
      = [⟨10, none, "Flour", 5, some 100, 1, none, none, true, none⟩] ∧
    rowNoPriceDate.cells.map Prod.fst = ["name", "uom"] ∧
    (processRowStep exampleEnv exampleCore 2 rowNoPriceDate).1.updated
      = exampleCore.updated + 1 ∧
    (processRowStep exampleEnv exampleCore 2 rowNoPriceDate).1.ingredients
      = [⟨10, none, "Flour", 0, some 777, 1, none, none, true, none⟩] := by
  refine ⟨rfl, rfl, ?_, ?_⟩ <;>
    simp [processRowStep, processValidRow, resolveCatSup, rowVals, Row.get,
      pyStrip, pyLower, parsePyFloat, pyReplaceCommaDot, digitsVal, get_uom,
      UOM_MAPPING, exampleEnv, exampleCore, flourRec, rowNoPriceDate,
      parse_date, lookupIngredient, findByCode, findByName, writeVals,
      createRec, mkRowErr]

/-- C5 (amended): on update, columns among code, category and supplier that
the row does not supply are left untouched, and fields the importer never
writes (active, notes) are untouched; on create those fields take model
defaults.  But name, price, uom and price_date are always written: a row
without a price column writes price 0 and a row without a date column writes
today as the price date. -/
theorem claim_C5 (ext : ImpEnv) (c : ImportCore) (n : Nat) (row : Row)
    (hname : pyStrip (row.get "name" "") ≠ "")
    (huomname : pyStrip (row.get "uom" (row.get "unit" "")) ≠ "")
    (hcode : pyStrip (row.get "code" "") = "")
    (hcat : pyStrip (row.get "category" "") = "")
    (hsup : pyStrip (row.get "supplier" "") = "") :
    ∀ price uom,
      parsePyFloat (pyReplaceCommaDot (pyStrip (row.get "price" "0"))) = some price →
      get_uom ext (pyStrip (row.get "uom" (row.get "unit" ""))) = some uom →
      (∀ r, findByName c.ingredients (pyStrip (row.get "name" "")) = some r →
        (processRowStep ext c n row).1.ingredients
          = c.ingredients.map (fun x => if x.id = r.id then
              { x with
                name := pyStrip (row.get "name" "")
                price := price
                uom_id := uom.id
                price_date := some ((parse_date ext
                  (pyStrip (row.get "date" ""))).getD ext.today) }
              else x)) ∧
      (findByName c.ingredients (pyStrip (row.get "name" "")) = none →
        (processRowStep ext c n row).1.ingredients
          = c.ingredients ++
            [{ id := c.nextIngId
               code := none
               name := pyStrip (row.get "name" "")
               price := price
               price_date := some ((parse_date ext
                 (pyStrip (row.get "date" ""))).getD ext.today)
               uom_id := uom.id
               category_id := none
               supplier_id := none
               active := true
               notes := none }]) := by
  intro price uom hp hu
  have hstep : processRowStep ext c n row = (processValidRow ext c row price uom, []) := by
    unfold processRowStep
    simp only []
    simp [hname, huomname, hp, hu]
  have hrcs := resolveCatSup_none c row hcat hsup
  constructor
  · intro r hfound
    have hlook : lookupIngredient c.ingredients (pyStrip (row.get "code" ""))
        (pyStrip (row.get "name" "")) = some r := by
      unfold lookupIngredient
      simp [hcode, hfound]
    rw [hstep]
    unfold processValidRow
    simp only []
    rw [hrcs]
    simp only [hlook]
    unfold writeVals rowVals
    simp only [hrcs, hcode]
    simp
  · intro hnone
    have hlook : lookupIngredient c.ingredients (pyStrip (row.get "code" ""))
        (pyStrip (row.get "name" "")) = none := by
      unfold lookupIngredient
      simp [hcode, hnone]
    rw [hstep]
    unfold processValidRow
    simp only []
    rw [hrcs]
    simp only [hlook]
    unfold createRec rowVals
    simp only [hrcs, hcode]
    simp

/-- Witness for C5 at a concrete update row with price "12,50" and no code,
category, supplier or date columns. -/
theorem claim_C5_witness :
    (processRowStep exampleEnv exampleCore 2 rowFlourPrice).1.ingredients
      = exampleCore.ingredients.map (fun x => if x.id = flourRec.id then
          { x with
            name := pyStrip (rowFlourPrice.get "name" "")
            price := (12.50 : ℚ)
            uom_id := (⟨1, "kg"⟩ : UomRec).id
            price_date := some ((parse_date exampleEnv
              (pyStrip (rowFlourPrice.get "date" ""))).getD exampleEnv.today) }
          else x) :=
  ((claim_C5 exampleEnv exampleCore 2 rowFlourPrice (by decide) (by decide)
      (by decide) (by decide) (by decide)) (12.50 : ℚ) ⟨1, "kg"⟩
    (by
      have h : pyStrip (rowFlourPrice.get "price" "0") = "12,50" := rfl
      rw [h]
      simp [parsePyFloat, pyReplaceCommaDot, pyStrip, digitsVal]
      norm_num)
    (by decide)).1 flourRec rfl

/-- C6: the price string is stripped, every comma replaced by a period, and
parsed as a float; a parse failure produces a row error and skips the row;
and "12,50" parses to 12.50. -/
theorem claim_C6 (ext : ImpEnv) (c : ImportCore) (n : Nat) (row : Row) :
    parsePyFloat (pyReplaceCommaDot (pyStrip "12,50")) = some (12.50 : ℚ) ∧
    (pyStrip (row.get "name" "") ≠ "" →
      pyStrip (row.get "uom" (row.get "unit" "")) ≠ "" →
      parsePyFloat (pyReplaceCommaDot (pyStrip (row.get "price" "0"))) = none →
      processRowStep ext c n row
        = (c, [mkRowErr n ("Invalid price \x27"
            ++ pyStrip (row.get "price" "0") ++ "\x27")])) ∧
    (∀ price uom,
      pyStrip (row.get "name" "") ≠ "" →
      pyStrip (row.get "uom" (row.get "unit" "")) ≠ "" →
      parsePyFloat (pyReplaceCommaDot (pyStrip (row.get "price" "0"))) = some price →
      get_uom ext (pyStrip (row.get "uom" (row.get "unit" ""))) = some uom →
      processRowStep ext c n row = (processValidRow ext c row price uom, [])) := by
  refine ⟨?_, ?_, ?_⟩
  · simp [parsePyFloat, pyReplaceCommaDot, pyStrip, digitsVal]
    norm_num
  · intro hname huom hbad
    unfold processRowStep
    simp only []
    simp [hname, huom, hbad]
  · intro price uom hname huom hp hu
    unfold processRowStep
    simp only []
    simp [hname, huom, hp, hu]

/-- Witness for C6 at a concrete row whose price cell is "abc". -/
theorem claim_C6_witness :
    processRowStep exampleEnv exampleCore 2 rowBadPrice
      = (exampleCore, [mkRowErr 2 "Invalid price \x27abc\x27"]) := by
  have h := (claim_C6 exampleEnv exampleCore 2 rowBadPrice).2.1
    (by decide) (by decide) (by decide)
  simpa using h

/-- Counterexample to C7 as stated: "kg" matches the fixed synonym table,
yet in a registry where the mapped xmlid record is missing the lookup still
falls back to the name search and resolves to the name-matched unit — so the
fallback does not happen only when no synonym matches. -/
theorem claim_C7_counterexample :
    UOM_MAPPING.find? (fun q => q.1 = pyStrip (pyLower "kg"))
      = some ("kg", "uom.product_uom_kgm") ∧
    envNoXmlids.xmlidRef "uom.product_uom_kgm" = none ∧
    get_uom envNoXmlids "kg" = some ⟨7, "kg"⟩ :=
  ⟨by decide, rfl, by decide⟩

/-- C7 (amended): the unit string is lowercased and trimmed and checked
against the fixed synonym table before any other lookup; the importer falls
back to a case-insensitive exact name search when no synonym matches, and
also when a synonym matches but its mapped registry record is missing; a
miss on both paths produces a row error and skips the row; and "Kg" resolves
to the kilogram unit. -/
theorem claim_C7 :
    (∀ (ext : ImpEnv) (nm : String) p u, nm ≠ "" →
      UOM_MAPPING.find? (fun q => q.1 = pyStrip (pyLower nm)) = some p →
      ext.xmlidRef p.2 = some u →
      get_uom ext nm = some u) ∧
    (∀ (ext : ImpEnv) (nm : String), nm ≠ "" →
      UOM_MAPPING.find? (fun q => q.1 = pyStrip (pyLower nm)) = none →
      get_uom ext nm = ext.uoms.find? (fun r => pyLower r.name = pyLower nm)) ∧
    (∀ (ext : ImpEnv) (nm : String) p, nm ≠ "" →
      UOM_MAPPING.find? (fun q => q.1 = pyStrip (pyLower nm)) = some p →
      ext.xmlidRef p.2 = none →
      get_uom ext nm = ext.uoms.find? (fun r => pyLower r.name = pyLower nm)) ∧
    (∀ (ext : ImpEnv) (c : ImportCore) (n : Nat) (row : Row),
      pyStrip (row.get "name" "") ≠ "" →
      pyStrip (row.get "uom" (row.get "unit" "")) ≠ "" →
      (∃ price, parsePyFloat
        (pyReplaceCommaDot (pyStrip (row.get "price" "0"))) = some price) →
      get_uom ext (pyStrip (row.get "uom" (row.get "unit" ""))) = none →
      processRowStep ext c n row
        = (c, [mkRowErr n ("Unknown UoM \x27"
            ++ pyStrip (row.get "uom" (row.get "unit" "")) ++ "\x27")])) ∧
    (∀ (ext : ImpEnv) u, ext.xmlidRef "uom.product_uom_kgm" = some u →
      get_uom ext "Kg" = some u) := by
  refine ⟨?_, ?_, ?_, ?_, ?_⟩
  · intro ext nm p u hnm hfind href
    unfold get_uom
    simp only []
    simp [hnm, hfind, href]
  · intro ext nm hnm hfind
    unfold get_uom
    simp only []
    simp [hnm, hfind]
  · intro ext nm p hnm hfind href
    unfold get_uom
    simp only []
    simp [hnm, hfind, href]
  · intro ext c n row hname huom hp hu
    obtain ⟨price, hp⟩ := hp
    unfold processRowStep
    simp only []
    simp [hname, huom, hp, hu]
  · intro ext u href
    unfold get_uom
    simp only []
    have : UOM_MAPPING.find? (fun q => q.1 = pyStrip (pyLower "Kg"))
        = some ("kg", "uom.product_uom_kgm") := by decide
    simp [this, href]

/-- Witness for C7: "Kg" resolves through the synonym table in the example
registry. -/
theorem claim_C7_witness :
    get_uom exampleEnv "Kg" = some ⟨1, "kg"⟩ :=
  claim_C7.2.2.2.2 exampleEnv ⟨1, "kg"⟩ rfl

/-- C8: a row failing one of the per-row validations (missing name, missing
unit-of-measure value, bad price, unknown unit) adds exactly one error whose
text carries the 1-indexed row number (data rows start at 2 because the
header is row 1), changes nothing else, and the loop continues: the batch
result is the result of the remaining rows with that single error in front
of their errors. -/
theorem claim_C8 (ext : ImpEnv) (row : Row) (s : String)
    (h : rowFailKind ext row = some s) :
    (∀ (c : ImportCore) (l : List String) (n : Nat),
      processRow ext ⟨c, l⟩ n row = ⟨c, l ++ [mkRowErr n s]⟩) ∧
    (∀ (c : ImportCore) (l : List String) (m : Nat) (rest : List Row),
      importRows ext ⟨c, l⟩ m (row :: rest)
        = ⟨(importRows ext ⟨c, []⟩ (m + 1) rest).core,
           l ++ mkRowErr (m + 1) s
             :: (importRows ext ⟨c, []⟩ (m + 1) rest).errors⟩) := by
  have hp := processRowStep_fail ext row s h
  constructor
  · intro c l n
    unfold processRow
    rw [hp]
  · intro c l m rest
    show importRows ext (processRow ext ⟨c, l⟩ (m + 1) row) (m + 1) rest = _
    unfold processRow
    rw [hp c (m + 1)]
    rw [importRows_errors_accum ext rest c (l ++ [mkRowErr (m + 1) s]) (m + 1)]
    simp

/-- Witness for C8: a row with no unit column errors as row 2 while the
following valid row is still processed. -/
theorem claim_C8_witness :
    processRow exampleEnv ⟨exampleCore, []⟩ 2 rowNoUom
      = ⟨exampleCore, [] ++ [mkRowErr 2 "Missing unit of measure"]⟩ ∧
    importRows exampleEnv ⟨exampleCore, []⟩ 1 [rowNoUom, rowFlourPrice]
      = ⟨(importRows exampleEnv ⟨exampleCore, []⟩ 2 [rowFlourPrice]).core,
         [] ++ mkRowErr 2 "Missing unit of measure"
           :: (importRows exampleEnv ⟨exampleCore, []⟩ 2 [rowFlourPrice]).errors⟩ := by
  have h := claim_C8 exampleEnv rowNoUom "Missing unit of measure" (by decide)
  exact ⟨h.1 exampleCore [] 2, h.2 exampleCore [] 1 [rowFlourPrice]⟩

/-- C9: the result report contains the created count and the updated count;
when there are errors it shows the first at most 20 of them verbatim in
order, and an overflow line with the remaining count exactly when more than
20 occurred; and action_import joins exactly these lines. -/
theorem claim_C9 (cnt upd : Nat) (errs : List String) :
    ("Created: " ++ toString cnt) ∈ buildResultLines cnt upd errs ∧
    ("Updated: " ++ toString upd) ∈ buildResultLines cnt upd errs ∧
    (errs ≠ [] → ∃ pre post,
      buildResultLines cnt upd errs = pre ++ errs.take 20 ++ post) ∧
    (errs.take 20).length ≤ 20 ∧
    (20 < errs.length →
      ("... and " ++ toString (errs.length - 20) ++ " more errors")
        ∈ buildResultLines cnt upd errs) ∧
    (∀ (ext : ImpEnv) (c : ImportCore) (rows : List Row),
      (action_import ext c rows).2
        = String.intercalate "\n" (buildResultLines
            (importRows ext ⟨{ c with created := 0, updated := 0 }, []⟩ 1 rows).core.created
            (importRows ext ⟨{ c with created := 0, updated := 0 }, []⟩ 1 rows).core.updated
            (importRows ext ⟨{ c with created := 0, updated := 0 }, []⟩ 1 rows).errors)) := by
  refine ⟨?_, ?_, ?_, ?_, ?_, ?_⟩
  · unfold buildResultLines
    split <;> simp
  · unfold buildResultLines
    split <;> simp
  · intro hne
    unfold buildResultLines
    simp only []
    rw [if_neg (by simpa using hne)]
    exact ⟨["Import completed!", "Created: " ++ toString cnt,
            "Updated: " ++ toString upd,
            "\nErrors (" ++ toString errs.length ++ "):"],
           (if 20 < errs.length then
              ["... and " ++ toString (errs.length - 20) ++ " more errors"]
            else []),
           by simp⟩
  · simpa using List.length_take_le 20 errs
  · intro hlong
    unfold buildResultLines
    have hne : ¬ errs.isEmpty := by
      cases errs with
      | nil => simp at hlong
      | cons a l => simp
    rw [if_neg hne, if_pos hlong]
    simp
  · intro ext c rows
    rfl

/-- Witness for C9 at 21 accumulated errors. -/
theorem claim_C9_witness :
    (∃ pre post, buildResultLines 1 2 manyErrs = pre ++ manyErrs.take 20 ++ post) ∧
    ("... and " ++ toString (manyErrs.length - 20) ++ " more errors")
      ∈ buildResultLines 1 2 manyErrs :=
  ⟨(claim_C9 1 2 manyErrs).2.2.1 (by decide),
   (claim_C9 1 2 manyErrs).2.2.2.2.1 (by decide)⟩
